import Mathlib

/-!
Formal model of the StockAgent conversational agent core (the fallback
variant of the TypeScript source): data model, model-invoker fallback,
and the agent loop (runConversation), shallowly embedded as pure Lean
functions.  External collaborators (the LLM transport, the tool
implementation, the abort flag, and the wall clock used for message ids)
are gathered in an explicit environment record.
-/

namespace StockAgent

/-- UI message role (types.ts Role enum). -/
inductive Role where
  | user
  | model
  | tool
deriving DecidableEq, Repr

/-- One point of the stock time series (types.ts StockDataPoint).  The
JavaScript numbers are opaque payload for the agent core; they are modelled
as integers. -/
structure StockDataPoint where
  date : String
  price : Int
  volume : Int
deriving DecidableEq, Repr

/-- Tool payload (types.ts StockToolResult). -/
structure StockToolResult where
  symbol : String
  currentPrice : Int
  changePercent : Int
  data : List StockDataPoint
deriving DecidableEq, Repr

/-- Argument bag of a tool call; the declared schema requires the single
field symbol. -/
structure FunctionArgs where
  symbol : String
deriving DecidableEq, Repr

/-- A functionCall part payload: name, argument bag, call identifier. -/
structure FunctionCall where
  name : String
  args : FunctionArgs
  id : Option String
deriving DecidableEq, Repr

/-- A functionResponse part payload: name and id copied from the call, and
the response wrapper holding the tool result. -/
structure FunctionResponse where
  name : String
  id : Option String
  response : StockToolResult
deriving DecidableEq, Repr

/-- A content part; any of the optional fields may be present. -/
structure Part where
  text : Option String := none
  functionCall : Option FunctionCall := none
  functionResponse : Option FunctionResponse := none
deriving DecidableEq, Repr

/-- One turn of the transcript; the tool-result turn the loop appends has no
role field. -/
structure Content where
  role : Option String := none
  parts : Option (List Part) := none
deriving DecidableEq, Repr

/-- One candidate completion of a model response. -/
structure Candidate where
  content : Option Content := none
deriving DecidableEq, Repr

/-- A model response as the loop reads it. -/
structure GenerateContentResponse where
  candidates : Option (List Candidate) := none
deriving DecidableEq, Repr

/-- UI message (types.ts Message); metadata is never touched by the agent
core and is omitted. -/
structure Message where
  id : String
  role : Role
  content : String
  stockData : Option (List StockToolResult) := none
  shouldAnimate : Option Bool := none
deriving DecidableEq, Repr

/-- The fields of a thrown error that the code reads: name (AbortError
discrimination), numeric status and code, and the message text. -/
structure AgentError where
  name : Option String := none
  status : Option Nat := none
  code : Option Nat := none
  message : Option String := none
deriving DecidableEq, Repr

/-- Whether pat occurs at the head of the character list. -/
def leadsWith : List Char → List Char → Bool
  | [], _ => true
  | _ :: _, [] => false
  | a :: as, b :: bs => a == b && leadsWith as bs

/-- Whether pat occurs anywhere in the character list. -/
def occursIn (pat : List Char) : List Char → Bool
  | [] => leadsWith pat []
  | b :: bs => leadsWith pat (b :: bs) || occursIn pat bs

/-- JavaScript String.prototype.includes: substring containment. -/
def strIncludes (s pat : String) : Bool :=
  occursIn pat.toList s.toList

/-- error.message && error.message.includes(pat): false when the message is
absent. -/
def msgIncludes (e : AgentError) (pat : String) : Bool :=
  match e.message with
  | none => false
  | some m => strIncludes m pat

/-- The rate-limit classification of generateContentWithFallback. -/
def isRateLimit (e : AgentError) : Bool :=
  e.status == some 429 || e.code == some 429 ||
  msgIncludes e "429" || msgIncludes e "quota"

/-- The overload classification of generateContentWithFallback. -/
def isOverloaded (e : AgentError) : Bool :=
  e.status == some 503 || msgIncludes e "503"

/-- The static model priority list. -/
def models : List String := ["gemini-2.0-flash", "gemini-1.5-flash"]

/-- The DOMException thrown on cancellation. -/
def abortError : AgentError :=
  { name := some "AbortError", message := some "Aborted" }

/-- The error thrown when the response carries no content. -/
def noContentError : AgentError :=
  { message := some "No content received from model" }

/-- The error thrown when the fallback loop falls through with no recorded
error (only reachable with an empty model list). -/
def allModelsFailedError : AgentError :=
  { message := some "All models failed" }

/-- The for-loop of generateContentWithFallback.  gen m stands for one
transport request with model m (contents and config are fixed by the
caller); lastModel is models[models.length - 1]; the returned list records
the models attempted, in order. -/
def fallbackGo (gen : String → Except AgentError GenerateContentResponse)
    (lastModel : Option String) :
    List String → Option AgentError → List String →
    Except AgentError (GenerateContentResponse × String) × List String
  | [], lastError, attempted =>
    (Except.error (lastError.getD allModelsFailedError), attempted)
  | model :: rest, lastError, attempted =>
    match gen model with
    | Except.ok result => (Except.ok (result, model), attempted ++ [model])
    | Except.error e =>
      if (isRateLimit e || isOverloaded e) && some model != lastModel then
        fallbackGo gen lastModel rest (some e) (attempted ++ [model])
      else
        (Except.error e, attempted ++ [model])

/-- Tries the models in priority order; on a capacity failure that is not on
the last model, cools down and substitutes the next model; otherwise
propagates.  Also returns the trace of attempted models. -/
def generateContentWithFallback
    (gen : String → Except AgentError GenerateContentResponse)
    (ms : List String) :
    Except AgentError (GenerateContentResponse × String) × List String :=
  fallbackGo gen ms.getLast? ms none []

/-- Modelled from the spec wording of the capacity-exhaustion class used by
the fallback claims: a 429 or 503 status/code, or a quota/overload message
marker. -/
def specCapacityExhaustion (e : AgentError) : Bool :=
  e.status == some 429 || e.code == some 429 ||
  e.status == some 503 || e.code == some 503 ||
  msgIncludes e "quota" || msgIncludes e "429" || msgIncludes e "503"

/-- The tool registry: maps a tool name to its implementation; impl stands
for getStockMarketData. -/
def toolsImplementation (impl : String → Except AgentError StockToolResult)
    (name : String) : Option (String → Except AgentError StockToolResult) :=
  if name = "get_stock_market_data" then some impl else none

/-- The external collaborators of one run.  gen is the transport applied to
a history snapshot and a model name; tool is the registered tool body;
aborted gives the abort flag as read at the k-th checked suspension point of
the run; nowId supplies the Date.now()-based id at the n-th
message-creation point. -/
structure Env where
  gen : List Content → String → Except AgentError GenerateContentResponse
  tool : String → Except AgentError StockToolResult
  aborted : Nat → Bool
  nowId : Nat → String

/-- The mutable locals of one run: the instance history, the messages
accumulated for the caller, the status updates sent so far, the number of
abort checks performed, and the iteration counter. -/
structure LoopState where
  history : List Content
  newMessages : List Message
  statuses : List String
  checkIdx : Nat
  iteration : Nat
deriving DecidableEq, Repr

/-- The user turn pushed at the start of a run. -/
def userTurn (userMessage : String) : Content :=
  { role := some "user", parts := some [{ text := some userMessage }] }

/-- result.candidates?.[0]?.content -/
def contentOf (r : GenerateContentResponse) : Option Content :=
  (r.candidates.getD []).head?.bind Candidate.content

/-- parts.filter(p => p.functionCall) -/
def toolCallsOf (parts : List Part) : List Part :=
  parts.filter fun p => p.functionCall.isSome

/-- parts.filter(p => p.text).map(p => p.text).join(): an absent or empty
text field is falsy and filtered out. -/
def textPartsOf (parts : List Part) : String :=
  String.join
    (((parts.filter fun p => (p.text.getD "") != "").map fun p => p.text.getD ""))

/-- history[history.length - 1] = c (the use site has a nonempty history
whose last element is already c). -/
def setLast (l : List Content) (c : Content) : List Content :=
  l.dropLast ++ [c]

/-- The for-loop over toolCalls: an abort check before each call, a silent
skip of unregistered names, and one functionResponse part plus one UI
result per executed call.  Returns the parts, the UI results and the
updated check counter, or the thrown error. -/
def execTools (env : Env) :
    List Part → Nat → List Part → List StockToolResult →
    Except AgentError (List Part × List StockToolResult × Nat)
  | [], checkIdx, frParts, trUI => Except.ok (frParts, trUI, checkIdx)
  | call :: rest, checkIdx, frParts, trUI =>
    if env.aborted checkIdx then Except.error abortError
    else
      match call.functionCall with
      | none => execTools env rest (checkIdx + 1) frParts trUI
      | some fc =>
        match toolsImplementation env.tool fc.name with
        | none => execTools env rest (checkIdx + 1) frParts trUI
        | some impl =>
          match impl fc.args.symbol with
          | Except.error e => Except.error e
          | Except.ok toolResult =>
            execTools env rest (checkIdx + 1)
              (frParts ++
                [{ functionResponse :=
                     some ⟨fc.name, fc.id, toolResult⟩ }])
              (trUI ++ [toolResult])

/-- Outcome of one while-loop iteration. -/
inductive StepResult where
  | more (s : LoopState)
  | final (s : LoopState)
  | errored (s : LoopState)
  | abort (s : LoopState) (e : AgentError)
deriving DecidableEq, Repr

/-- The user-facing message the catch block selects by error category. -/
def errorMessageFor (e : AgentError) : String :=
  if e.status == some 429 || msgIncludes e "429" then
    "所有可用模型的免费配额均已耗尽。请稍后再试（Gemini 2.0 & 1.5）。"
  else if msgIncludes e "quota" then
    "API 配额已耗尽。请稍后再试。"
  else if e.status == some 404 then
    "配置的模型不可用。"
  else
    "处理您的请求时遇到错误。"

/-- The per-iteration catch block: an AbortError is rethrown, any other
error ends the loop with one role-model error message. -/
def catchHandler (env : Env) (e : AgentError) (s : LoopState) : StepResult :=
  if e.name = some "AbortError" then StepResult.abort s e
  else
    StepResult.errored
      { s with newMessages := s.newMessages ++
          [{ id := env.nowId s.newMessages.length
           , role := Role.model
           , content := errorMessageFor e
           , shouldAnimate := some true }] }

/-- The body of one while-loop iteration (the try/catch).  iteration is the
already-incremented counter; s.checkIdx has already accounted for the
loop-top abort check. -/
def runIteration (env : Env) (iteration : Nat) (s : LoopState) : StepResult :=
  let s0 : LoopState := { s with statuses := s.statuses ++
      [if iteration = 1 then "thinking" else "analyzing_tool_data"] }
  match generateContentWithFallback (env.gen s0.history) models with
  | (Except.error e, _) => catchHandler env e s0
  | (Except.ok (result, _modelUsed), _) =>
    if env.aborted s0.checkIdx then
      catchHandler env abortError s0
    else
      let s1 : LoopState := { s0 with checkIdx := s0.checkIdx + 1 }
      match contentOf result with
      | none => catchHandler env noContentError s1
      | some responseContent =>
        let s2 : LoopState := { s1 with history := s1.history ++ [responseContent] }
        let parts := responseContent.parts.getD []
        let toolCalls := toolCallsOf parts
        let textParts := textPartsOf parts
        if toolCalls.length > 0 then
          let s3 : LoopState := { s2 with statuses := s2.statuses ++ ["executing_tool"] }
          match execTools env toolCalls s3.checkIdx [] [] with
          | Except.error e => catchHandler env e s3
          | Except.ok (functionResponsesParts, toolResultsForUI, checkIdx2) =>
            let s4 : LoopState := { s3 with
              checkIdx := checkIdx2,
              history := setLast s3.history responseContent ++
                [{ role := none, parts := some functionResponsesParts }] }
            let s5 : LoopState :=
              if toolResultsForUI.length > 0 then
                { s4 with newMessages := s4.newMessages ++
                  [{ id := env.nowId s4.newMessages.length ++ "-tool"
                   , role := Role.tool
                   , content := "已获取 " ++
                       String.intercalate ", "
                         (toolResultsForUI.map StockToolResult.symbol) ++
                       " 的数据"
                   , stockData := some toolResultsForUI
                   , shouldAnimate := some false }] }
              else s4
            StepResult.more s5
        else
          StepResult.final
            { s2 with newMessages := s2.newMessages ++
              [{ id := env.nowId s2.newMessages.length
               , role := Role.model
               , content := if textParts = "" then "我已处理该请求。" else textParts
               , shouldAnimate := some true }] }

/-- The while loop.  fuel counts the iterations the guard still allows
(MAX_ITERATIONS minus the iterations already run); each pass checks the
abort flag, increments the iteration counter and runs one iteration.
Returns the final loop state plus the thrown error, if any. -/
def runLoop (env : Env) : Nat → LoopState → LoopState × Option AgentError
  | 0, s => (s, none)
  | fuel + 1, s =>
    if env.aborted s.checkIdx then (s, some abortError)
    else
      match runIteration env (s.iteration + 1)
          { s with checkIdx := s.checkIdx + 1, iteration := s.iteration + 1 } with
      | StepResult.more s' => runLoop env fuel s'
      | StepResult.final s' => (s', none)
      | StepResult.errored s' => (s', none)
      | StepResult.abort s' e => (s', some e)

/-- The iteration cap. -/
def MAX_ITERATIONS : Nat := 5

/-- The instance state that survives a run. -/
structure AgentState where
  history : List Content
deriving DecidableEq, Repr

/-- runConversation with its full observable outcome: the final loop state
(the history survives on the agent instance) and the thrown error, if
any.  Pushes the user turn, performs the pre-loop abort check, then runs
the bounded loop. -/
def runConversationFull (env : Env) (userMessage : String) (st : AgentState) :
    LoopState × Option AgentError :=
  let s0 : LoopState :=
    { history := st.history ++ [userTurn userMessage]
    , newMessages := []
    , statuses := []
    , checkIdx := 1
    , iteration := 0 }
  if env.aborted 0 then (s0, some abortError)
  else runLoop env MAX_ITERATIONS s0

/-- runConversation as the caller sees it: the new agent state and either
the returned message list or the thrown error. -/
def runConversation (env : Env) (userMessage : String) (st : AgentState) :
    AgentState × Except AgentError (List Message) :=
  match runConversationFull env userMessage st with
  | (s, none) => ({ history := s.history }, Except.ok s.newMessages)
  | (s, some e) => ({ history := s.history }, Except.error e)

/-- setHistory: rebuilds the instance history from UI messages, skipping
tool messages; user messages become user turns, everything else a model
turn, each with a single text part. -/
def setHistory (messages : List Message) : List Content :=
  (messages.filter fun m => m.role != Role.tool).map fun m =>
    if m.role = Role.user then
      { role := some "user", parts := some [{ text := some m.content }] }
    else
      { role := some "model", parts := some [{ text := some m.content }] }

/-! Concrete fixtures used by the counterexamples and the witnesses. -/

/-- A fixed tool result used by concrete runs. -/
def trTSLA : StockToolResult :=
  { symbol := "TSLA", currentPrice := 242, changePercent := -1, data := [] }

/-- A recognized call of the registered tool. -/
def fcTSLA : FunctionCall :=
  { name := "get_stock_market_data", args := { symbol := "TSLA" }, id := some "call-1" }

/-- A model turn requesting the registered tool once. -/
def rcToolCall : Content :=
  { role := some "model", parts := some [{ functionCall := some fcTSLA }] }

/-- A response whose single candidate requests the registered tool once. -/
def respToolCall : GenerateContentResponse :=
  { candidates := some [{ content := some rcToolCall }] }

/-- A tool call whose name is not in the registry. -/
def fcUnknown : FunctionCall :=
  { name := "foo_tool", args := { symbol := "TSLA" }, id := some "call-9" }

/-- A model turn requesting one unregistered tool. -/
def rcUnknown : Content :=
  { role := some "model", parts := some [{ functionCall := some fcUnknown }] }

/-- A response whose single candidate requests one unregistered tool. -/
def respUnknown : GenerateContentResponse :=
  { candidates := some [{ content := some rcUnknown }] }

/-- A final-answer model turn with one text part. -/
def rcFinal : Content :=
  { role := some "model", parts := some [{ text := some "特斯拉目前下跌1.3%。" }] }

/-- A response whose single candidate is a final answer. -/
def respFinal : GenerateContentResponse :=
  { candidates := some [{ content := some rcFinal }] }

/-- An environment whose model always requests the registered tool, whose
tool always succeeds, and which is never aborted. -/
def envAllTool : Env :=
  { gen := fun _ _ => Except.ok respToolCall
  , tool := fun _ => Except.ok trTSLA
  , aborted := fun _ => false
  , nowId := fun _ => "1700000000000" }

/-- An environment whose model always answers with final text. -/
def envFinal : Env := { envAllTool with gen := fun _ _ => Except.ok respFinal }

/-- An environment whose model requests one unregistered tool. -/
def envUnknownTool : Env := { envAllTool with gen := fun _ _ => Except.ok respUnknown }

/-- An environment aborted from the start. -/
def envAborted : Env := { envAllTool with aborted := fun _ => true }

/-- An environment aborted from the fourth checked point on: the pre-loop
check (0), the loop-top check (1) and the post-model-call check (2) pass,
and the check before the first tool call (3) reads true. -/
def envC6 : Env := { envAllTool with aborted := fun i => decide (3 ≤ i) }

/-- An environment aborted from the fifth checked point on: the first
iteration (checks 0 to 3) completes, and the loop-top check of the second
iteration (4) reads true. -/
def envC10 : Env := { envAllTool with aborted := fun i => decide (4 ≤ i) }

/-- An error carrying only a 429 status. -/
def err429 : AgentError := { status := some 429 }

/-- An error carrying only a 503 status. -/
def err503 : AgentError := { status := some 503 }

/-- An error carrying only a 503 code (no status, no message). -/
def errCode503 : AgentError := { code := some 503 }

/-- An error carrying only a quota message marker. -/
def errQuota : AgentError := { message := some "quota exceeded for project" }

/-- An error carrying only a 404 status. -/
def err404 : AgentError := { status := some 404 }

/-- An unclassified error. -/
def errGeneric : AgentError := { message := some "boom" }

/-- The error of a failing tool body. -/
def errToolFail : AgentError := { message := some "tool exploded" }

/-- An environment whose transport always fails with a plain 429. -/
def envGen429 : Env := { envAllTool with gen := fun _ _ => Except.error err429 }

/-- An environment whose transport succeeds with a response carrying no
candidates. -/
def envNoContent : Env :=
  { envAllTool with gen := fun _ _ => Except.ok { candidates := some [] } }

/-- An environment whose model requests the registered tool and whose tool
body fails. -/
def envToolFail : Env := { envAllTool with tool := fun _ => Except.error errToolFail }

/-- A transport for the fallback ordering scenario: model A fails with a
429, every other model succeeds. -/
def genAB : String → Except AgentError GenerateContentResponse :=
  fun m => if m = "A" then Except.error err429 else Except.ok respFinal

/-- A transport for the fallback counterexamples: model A fails with an
error whose only populated field is a 503 code, every other model
succeeds. -/
def genCode503 : String → Except AgentError GenerateContentResponse :=
  fun m => if m = "A" then Except.error errCode503 else Except.ok respFinal

/-- A transport where A fails with a 429 and every other model with a
503. -/
def genBothFail : String → Except AgentError GenerateContentResponse :=
  fun m => if m = "A" then Except.error err429 else Except.error err503

/-- A transport where A fails with the code-503 error and every other model
with a 429. -/
def genCode503Then429 : String → Except AgentError GenerateContentResponse :=
  fun m => if m = "A" then Except.error errCode503 else Except.error err429

/-- The functionResponse payload produced by the concrete tool call. -/
def frTSLA : FunctionResponse :=
  { name := "get_stock_market_data", id := some "call-1", response := trTSLA }

/-- The combined tool-result turn produced by one run of the concrete
tool-call iteration. -/
def toolTurnTSLA : Content :=
  { role := none, parts := some [{ functionResponse := some frTSLA }] }

/-- The tool-summary message produced by one run of the concrete tool-call
iteration. -/
def toolMsgTSLA : Message :=
  { id := "1700000000000-tool"
  , role := Role.tool
  , content := "已获取 TSLA 的数据"
  , stockData := some [trTSLA]
  , shouldAnimate := some false }

/-- The loop state after the first completed tool iteration of a run
against envC10. -/
def c10State : LoopState :=
  { history := [userTurn "查询特斯拉", rcToolCall, toolTurnTSLA]
  , newMessages := [toolMsgTSLA]
  , statuses := ["thinking", "executing_tool"]
  , checkIdx := 4
  , iteration := 1 }

/-! Helper lemmas about the agent loop. -/

/-- One iteration whose invoker fails and whose error is not an AbortError
ends the loop with one error message. -/
theorem runIteration_genError (env : Env) (it : Nat) (s : LoopState)
    (e : AgentError) (tr : List String)
    (hgen : generateContentWithFallback (env.gen s.history) models =
      (Except.error e, tr))
    (hname : e.name ≠ some "AbortError") :
    runIteration env it s = StepResult.errored
      { history := s.history
      , newMessages := s.newMessages ++
          [{ id := env.nowId s.newMessages.length
           , role := Role.model
           , content := errorMessageFor e
           , shouldAnimate := some true }]
      , statuses := s.statuses ++ [if it = 1 then "thinking" else "analyzing_tool_data"]
      , checkIdx := s.checkIdx
      , iteration := s.iteration } := by
  unfold runIteration catchHandler
  simp [hgen, hname]

/-- One iteration whose response carries no content ends the loop with the
generic error message. -/
theorem runIteration_noContent (env : Env) (it : Nat) (s : LoopState)
    (resp : GenerateContentResponse) (mu : String) (tr : List String)
    (hgen : generateContentWithFallback (env.gen s.history) models =
      (Except.ok (resp, mu), tr))
    (habort : env.aborted s.checkIdx = false)
    (hrc : contentOf resp = none) :
    runIteration env it s = StepResult.errored
      { history := s.history
      , newMessages := s.newMessages ++
          [{ id := env.nowId s.newMessages.length
           , role := Role.model
           , content := errorMessageFor noContentError
           , shouldAnimate := some true }]
      , statuses := s.statuses ++ [if it = 1 then "thinking" else "analyzing_tool_data"]
      , checkIdx := s.checkIdx + 1
      , iteration := s.iteration } := by
  unfold runIteration catchHandler
  simp [hgen, habort, hrc]
  decide

/-- One iteration whose tool loop throws a non-AbortError error ends the
loop with one error message, keeping the already-pushed model turn. -/
theorem runIteration_toolError (env : Env) (it : Nat) (s : LoopState)
    (resp : GenerateContentResponse) (mu : String) (tr : List String) (rc : Content)
    (e : AgentError)
    (hgen : generateContentWithFallback (env.gen s.history) models =
      (Except.ok (resp, mu), tr))
    (habort : env.aborted s.checkIdx = false)
    (hrc : contentOf resp = some rc)
    (htools : (toolCallsOf (rc.parts.getD [])).length > 0)
    (hexec : execTools env (toolCallsOf (rc.parts.getD [])) (s.checkIdx + 1) [] [] =
      Except.error e)
    (hname : e.name ≠ some "AbortError") :
    runIteration env it s = StepResult.errored
      { history := s.history ++ [rc]
      , newMessages := s.newMessages ++
          [{ id := env.nowId s.newMessages.length
           , role := Role.model
           , content := errorMessageFor e
           , shouldAnimate := some true }]
      , statuses := (s.statuses ++ [if it = 1 then "thinking" else "analyzing_tool_data"])
          ++ ["executing_tool"]
      , checkIdx := s.checkIdx + 1
      , iteration := s.iteration } := by
  unfold runIteration catchHandler
  simp [hgen, habort, hrc, htools, hexec, hname]

/-- One iteration whose response has no tool calls emits the final answer
and ends the loop. -/
theorem runIteration_final (env : Env) (it : Nat) (s : LoopState)
    (resp : GenerateContentResponse) (mu : String) (tr : List String) (rc : Content)
    (hgen : generateContentWithFallback (env.gen s.history) models =
      (Except.ok (resp, mu), tr))
    (habort : env.aborted s.checkIdx = false)
    (hrc : contentOf resp = some rc)
    (hnotool : toolCallsOf (rc.parts.getD []) = []) :
    runIteration env it s = StepResult.final
      { history := s.history ++ [rc]
      , newMessages := s.newMessages ++
          [{ id := env.nowId s.newMessages.length
           , role := Role.model
           , content := if textPartsOf (rc.parts.getD []) = "" then "我已处理该请求。"
                        else textPartsOf (rc.parts.getD [])
           , shouldAnimate := some true }]
      , statuses := s.statuses ++ [if it = 1 then "thinking" else "analyzing_tool_data"]
      , checkIdx := s.checkIdx + 1
      , iteration := s.iteration } := by
  unfold runIteration
  simp only [hgen, habort, hrc, hnotool, List.length_nil, gt_iff_lt, lt_irrefl, if_false,
    Bool.false_eq_true, List.append_assoc]

/-- The tool loop succeeds whenever the abort flag stays unset and the tool
body always succeeds, consuming one abort check per requested call. -/
theorem execTools_ok (env : Env)
    (habort : ∀ i, env.aborted i = false)
    (htool : ∀ sym, ∃ r, env.tool sym = Except.ok r) :
    ∀ (calls : List Part) (idx : Nat) (frp : List Part) (trui : List StockToolResult),
      ∃ frp2 trui2, execTools env calls idx frp trui =
        Except.ok (frp2, trui2, idx + calls.length) := by
  intro calls
  induction calls with
  | nil => intro idx frp trui; exact ⟨frp, trui, by simp [execTools]⟩
  | cons c rest ih =>
    intro idx frp trui
    have harith : idx + 1 + rest.length = idx + (c :: rest).length := by
      simp [List.length_cons]; omega
    cases hfc : c.functionCall with
    | none =>
      obtain ⟨a, b, h⟩ := ih (idx + 1) frp trui
      refine ⟨a, b, ?_⟩
      unfold execTools
      simp only [habort idx, hfc, Bool.false_eq_true, if_false]
      rw [h, harith]
    | some fc =>
      by_cases hname : fc.name = "get_stock_market_data"
      · obtain ⟨r, hr⟩ := htool fc.args.symbol
        obtain ⟨a, b, h⟩ := ih (idx + 1)
          (frp ++ [{ functionResponse := some ⟨fc.name, fc.id, r⟩ }]) (trui ++ [r])
        refine ⟨a, b, ?_⟩
        unfold execTools toolsImplementation
        simp only [habort idx, hfc, hname, if_true, Bool.false_eq_true, if_false, hr]
        rw [hname] at h
        rw [h, harith]
      · obtain ⟨a, b, h⟩ := ih (idx + 1) frp trui
        refine ⟨a, b, ?_⟩
        unfold execTools toolsImplementation
        simp only [habort idx, hfc, hname, Bool.false_eq_true, if_false]
        rw [h, harith]

/-- When every requested call resolves in the registry and its body
succeeds, the tool loop produces exactly one functionResponse part per
call, keyed in order by the call identifiers. -/
theorem execTools_recognized (env : Env)
    (habort : ∀ i, env.aborted i = false) :
    ∀ (calls : List Part) (idx : Nat) (frp : List Part) (trui : List StockToolResult),
      (∀ c ∈ calls, ∃ fc r, c.functionCall = some fc ∧
        fc.name = "get_stock_market_data" ∧ env.tool fc.args.symbol = Except.ok r) →
      ∃ news newr, execTools env calls idx frp trui =
          Except.ok (frp ++ news, trui ++ newr, idx + calls.length) ∧
        news.length = calls.length ∧ newr.length = calls.length ∧
        news.map (fun p => p.functionResponse.map FunctionResponse.id) =
          calls.map (fun c => c.functionCall.map FunctionCall.id) := by
  intro calls
  induction calls with
  | nil =>
    intro idx frp trui _
    exact ⟨[], [], by simp [execTools], rfl, rfl, rfl⟩
  | cons c rest ih =>
    intro idx frp trui hrec
    obtain ⟨fc, r, hfc, hname, hr⟩ := hrec c (List.mem_cons_self c rest)
    have harith : idx + 1 + rest.length = idx + (c :: rest).length := by
      simp [List.length_cons]; omega
    obtain ⟨news, newr, h, hlen1, hlen2, hids⟩ := ih (idx + 1)
      (frp ++ [{ functionResponse := some ⟨fc.name, fc.id, r⟩ }]) (trui ++ [r])
      (fun c hc => hrec c (List.mem_cons_of_mem _ hc))
    refine ⟨{ functionResponse := some ⟨fc.name, fc.id, r⟩ } :: news, r :: newr,
      ?_, ?_, ?_, ?_⟩
    · unfold execTools toolsImplementation
      simp only [habort idx, hfc, hname, if_true, Bool.false_eq_true, if_false, hr]
      rw [hname] at h
      rw [h, harith]
      simp
    · simp [hlen1]
    · simp [hlen2]
    · simp [hids, hfc]

/-- One iteration whose response requests tools and whose tool loop
succeeds continues the loop, with the model turn and the combined
tool-result turn appended and at most one tool-summary message emitted. -/
theorem runIteration_more (env : Env) (it : Nat) (s : LoopState)
    (resp : GenerateContentResponse) (mu : String) (tr : List String) (rc : Content)
    (frp : List Part) (trui : List StockToolResult) (idx2 : Nat)
    (hgen : generateContentWithFallback (env.gen s.history) models =
      (Except.ok (resp, mu), tr))
    (habort : env.aborted s.checkIdx = false)
    (hrc : contentOf resp = some rc)
    (htools : (toolCallsOf (rc.parts.getD [])).length > 0)
    (hexec : execTools env (toolCallsOf (rc.parts.getD [])) (s.checkIdx + 1) [] [] =
      Except.ok (frp, trui, idx2)) :
    runIteration env it s = StepResult.more
      (if trui.length > 0 then
        { history := s.history ++ [rc, { role := none, parts := some frp }]
        , newMessages := s.newMessages ++
            [{ id := env.nowId s.newMessages.length ++ "-tool"
             , role := Role.tool
             , content := "已获取 " ++
                 String.intercalate ", " (trui.map StockToolResult.symbol) ++ " 的数据"
             , stockData := some trui
             , shouldAnimate := some false }]
        , statuses := (s.statuses ++ [if it = 1 then "thinking" else "analyzing_tool_data"])
            ++ ["executing_tool"]
        , checkIdx := idx2
        , iteration := s.iteration }
      else
        { history := s.history ++ [rc, { role := none, parts := some frp }]
        , newMessages := s.newMessages
        , statuses := (s.statuses ++ [if it = 1 then "thinking" else "analyzing_tool_data"])
            ++ ["executing_tool"]
        , checkIdx := idx2
        , iteration := s.iteration }) := by
  unfold runIteration setLast
  simp [hgen, habort, hrc, htools, hexec, List.dropLast_concat]

/-- Existential form of runIteration_more exposing only what the loop
induction needs. -/
theorem runIteration_more_ex (env : Env) (it : Nat) (s : LoopState)
    (resp : GenerateContentResponse) (mu : String) (tr : List String) (rc : Content)
    (frp : List Part) (trui : List StockToolResult) (idx2 : Nat)
    (hgen : generateContentWithFallback (env.gen s.history) models =
      (Except.ok (resp, mu), tr))
    (habort : env.aborted s.checkIdx = false)
    (hrc : contentOf resp = some rc)
    (htools : (toolCallsOf (rc.parts.getD [])).length > 0)
    (hexec : execTools env (toolCallsOf (rc.parts.getD [])) (s.checkIdx + 1) [] [] =
      Except.ok (frp, trui, idx2)) :
    ∃ s₁, runIteration env it s = StepResult.more s₁ ∧
      s₁.iteration = s.iteration ∧
      s₁.newMessages.length ≤ s.newMessages.length + 1 ∧
      (∀ m ∈ s₁.newMessages, m ∈ s.newMessages ∨ m.role = Role.tool) := by
  have h := runIteration_more env it s resp mu tr rc frp trui idx2
    hgen habort hrc htools hexec
  by_cases hlen : trui.length > 0
  · rw [if_pos hlen] at h
    refine ⟨_, h, rfl, by simp, ?_⟩
    intro m hm
    rcases List.mem_append.1 hm with h1 | h1
    · exact Or.inl h1
    · simp only [List.mem_singleton] at h1
      subst h1
      exact Or.inr rfl
  · rw [if_neg hlen] at h
    exact ⟨_, h, rfl, by simp, fun m hm => Or.inl hm⟩

/-- A rethrown abort from the catch block always carries the AbortError
name. -/
theorem catchHandler_abort_name (env : Env) (e : AgentError) (s s' : LoopState)
    (e' : AgentError) (h : catchHandler env e s = StepResult.abort s' e') :
    e'.name = some "AbortError" := by
  unfold catchHandler at h
  split at h
  next hc =>
    cases h
    exact hc
  next hc => cases h

/-- Every error escaping one iteration carries the AbortError name. -/
theorem runIteration_abort_name (env : Env) (it : Nat) (s s' : LoopState)
    (e : AgentError) (h : runIteration env it s = StepResult.abort s' e) :
    e.name = some "AbortError" := by
  simp only [runIteration] at h
  generalize (if it = 1 then "thinking" else "analyzing_tool_data") = st at h
  split at h
  · exact catchHandler_abort_name _ _ _ _ _ h
  · split at h
    · exact catchHandler_abort_name _ _ _ _ _ h
    · split at h
      · exact catchHandler_abort_name _ _ _ _ _ h
      · split at h
        · split at h
          · exact catchHandler_abort_name _ _ _ _ _ h
          · simp at h
        · simp at h

/-- Every error escaping the while loop carries the AbortError name. -/
theorem runLoop_error_name (env : Env) :
    ∀ (fuel : Nat) (s s' : LoopState) (e : AgentError),
      runLoop env fuel s = (s', some e) → e.name = some "AbortError" := by
  intro fuel
  induction fuel with
  | zero => intro s s' e h; simp [runLoop] at h
  | succ n ih =>
    intro s s' e h
    unfold runLoop at h
    split at h
    · simp only [Prod.mk.injEq, Option.some.injEq] at h
      rw [← h.2]
      rfl
    · split at h
      next s1 hstep => exact ih s1 s' e h
      next s1 hstep => simp at h
      next s1 hstep => simp at h
      next s1 e1 hstep =>
        simp only [Prod.mk.injEq, Option.some.injEq] at h
        rw [← h.2]
        exact runIteration_abort_name env _ _ _ _ hstep

/-- Every error escaping runConversation carries the AbortError name. -/
theorem runConversation_error_name (env : Env) (u : String) (st : AgentState)
    (e : AgentError) (h : (runConversation env u st).2 = Except.error e) :
    e.name = some "AbortError" := by
  unfold runConversation at h
  split at h
  next s heq => simp at h
  next s e1 heq =>
    simp only [Except.error.injEq] at h
    subst h
    unfold runConversationFull at heq
    split at heq
    · simp only [Prod.mk.injEq, Option.some.injEq] at heq
      rw [← heq.2]
      rfl
    · exact runLoop_error_name env MAX_ITERATIONS _ _ _ heq

/-- When the invoker always yields a tool-requesting response, the tool
body always succeeds and the abort flag stays unset, the loop burns all its
fuel, adding one to the iteration counter and at most one tool-role
message per pass. -/
theorem runLoop_alltools (env : Env)
    (habort : ∀ i, env.aborted i = false)
    (htool : ∀ sym, ∃ r, env.tool sym = Except.ok r)
    (hresp : ∀ hist : List Content, ∃ resp mu tr rc,
      generateContentWithFallback (env.gen hist) models = (Except.ok (resp, mu), tr) ∧
      contentOf resp = some rc ∧ (toolCallsOf (rc.parts.getD [])).length > 0) :
    ∀ (fuel : Nat) (s : LoopState), ∃ s',
      runLoop env fuel s = (s', none) ∧
      s'.iteration = s.iteration + fuel ∧
      s'.newMessages.length ≤ s.newMessages.length + fuel ∧
      (∀ m ∈ s'.newMessages, m ∈ s.newMessages ∨ m.role = Role.tool) := by
  intro fuel
  induction fuel with
  | zero =>
    intro s
    exact ⟨s, by simp [runLoop], by omega, by omega, fun m hm => Or.inl hm⟩
  | succ n ih =>
    intro s
    obtain ⟨resp, mu, tr, rc, hgen, hrc, htools⟩ := hresp s.history
    obtain ⟨frp, trui, hexec⟩ := execTools_ok env habort htool
      (toolCallsOf (rc.parts.getD [])) (s.checkIdx + 1 + 1) [] []
    obtain ⟨s₁, hstep, hit, hlen, hmem⟩ := runIteration_more_ex env (s.iteration + 1)
      { s with checkIdx := s.checkIdx + 1, iteration := s.iteration + 1 }
      resp mu tr rc frp trui (s.checkIdx + 1 + 1 + (toolCallsOf (rc.parts.getD [])).length)
      hgen (habort (s.checkIdx + 1)) hrc htools hexec
    have hit2 : s₁.iteration = s.iteration + 1 := hit
    have hlen2 : s₁.newMessages.length ≤ s.newMessages.length + 1 := hlen
    obtain ⟨s', h1, h2, h3, h4⟩ := ih s₁
    refine ⟨s', ?_, by omega, by omega, ?_⟩
    · unfold runLoop
      simp only [habort s.checkIdx, Bool.false_eq_true, if_false, hstep]
      exact h1
    · intro m hm
      rcases h4 m hm with h | h
      · rcases hmem m h with h5 | h5
        · exact Or.inl h5
        · exact Or.inr h5
      · exact Or.inr h

/-! Theorems. -/

/-- Claim C1 counterexample: a model turn with one tool-call part whose
name is not in the registry completes its iteration without error, yet the
appended tool-result turn contains zero functionResponse parts, not one:
the last two history entries are the model turn with N = 1 tool-call parts
and a tool-result turn with 0 ≠ N response parts. -/
theorem C1_counterexample :
    runIteration envUnknownTool 1
      { history := [userTurn "查询"], newMessages := [], statuses := [],
        checkIdx := 2, iteration := 1 } =
      StepResult.more
        { history := [userTurn "查询", rcUnknown, { role := none, parts := some [] }]
        , newMessages := []
        , statuses := ["thinking", "executing_tool"]
        , checkIdx := 4
        , iteration := 1 } ∧
    (toolCallsOf (rcUnknown.parts.getD [])).length = 1 ∧
    ([] : List Part).length ≠ (toolCallsOf (rcUnknown.parts.getD [])).length := by
  refine ⟨by decide, rfl, by decide⟩

/-- Claim C1 (amended): for every iteration that completes without error
and without cancellation and whose model response contains N ≥ 1 tool-call
parts, all of which name the registered tool, the iteration appends the
model turn verbatim followed by exactly one tool-result turn whose
functionResponse parts number exactly N and carry, in order, the call
identifiers of the N requests.  (Calls naming an unregistered tool are
silently skipped and get no response part, which is what the
counterexample exhibits.) -/
theorem C1_history_pairing (env : Env) (it : Nat) (s : LoopState)
    (resp : GenerateContentResponse) (mu : String) (tr : List String) (rc : Content)
    (hgen : generateContentWithFallback (env.gen s.history) models =
      (Except.ok (resp, mu), tr))
    (habort : ∀ i, env.aborted i = false)
    (hrc : contentOf resp = some rc)
    (hN : (toolCallsOf (rc.parts.getD [])).length > 0)
    (hrec : ∀ c ∈ toolCallsOf (rc.parts.getD []), ∃ fc r, c.functionCall = some fc ∧
      fc.name = "get_stock_market_data" ∧ env.tool fc.args.symbol = Except.ok r) :
    ∃ s' frp, runIteration env it s = StepResult.more s' ∧
      s'.history = s.history ++ [rc, { role := none, parts := some frp }] ∧
      frp.length = (toolCallsOf (rc.parts.getD [])).length ∧
      frp.map (fun p => p.functionResponse.map FunctionResponse.id) =
        (toolCallsOf (rc.parts.getD [])).map
          (fun c => c.functionCall.map FunctionCall.id) := by
  obtain ⟨news, newr, hexec, hlen1, hlen2, hids⟩ := execTools_recognized env habort
    (toolCallsOf (rc.parts.getD [])) (s.checkIdx + 1) [] [] hrec
  have h := runIteration_more env it s resp mu tr rc news newr
    (s.checkIdx + 1 + (toolCallsOf (rc.parts.getD [])).length)
    hgen (habort s.checkIdx) hrc hN (by simpa using hexec)
  by_cases hlen : newr.length > 0
  · rw [if_pos hlen] at h
    exact ⟨_, news, h, rfl, hlen1, hids⟩
  · rw [if_neg hlen] at h
    exact ⟨_, news, h, rfl, hlen1, hids⟩

/-- Claim C1 witness: the amended pairing theorem applied to a concrete
iteration requesting the registered tool once. -/
theorem C1_witness :
    (toolCallsOf (rcToolCall.parts.getD [])).length > 0 ∧
    (∃ s' frp, runIteration envAllTool 1
        { history := [userTurn "查询特斯拉"], newMessages := [], statuses := [],
          checkIdx := 2, iteration := 1 } = StepResult.more s' ∧
      s'.history = [userTurn "查询特斯拉"] ++
        [rcToolCall, { role := none, parts := some frp }] ∧
      frp.length = (toolCallsOf (rcToolCall.parts.getD [])).length ∧
      frp.map (fun p => p.functionResponse.map FunctionResponse.id) =
        (toolCallsOf (rcToolCall.parts.getD [])).map
          (fun c => c.functionCall.map FunctionCall.id)) :=
  ⟨by decide,
   C1_history_pairing envAllTool 1
     { history := [userTurn "查询特斯拉"], newMessages := [], statuses := [],
       checkIdx := 2, iteration := 1 }
     respToolCall "gemini-2.0-flash" ["gemini-2.0-flash"] rcToolCall
     rfl (fun _ => rfl) rfl (by decide)
     (by
       intro c hc
       rw [show toolCallsOf (rcToolCall.parts.getD []) =
         [{ functionCall := some fcTSLA }] from rfl] at hc
       rw [List.mem_singleton] at hc
       subst hc
       exact ⟨fcTSLA, trTSLA, rfl, rfl, rfl⟩)⟩

/-- Claim C2: when every model response requests at least one tool (and the
tool body succeeds and no cancellation occurs), runConversation terminates
after exactly MAX_ITERATIONS (5) iterations, emits at most one tool-summary
message per iteration (at most five in total), and emits no role-model
final-answer message. -/
theorem C2_termination (env : Env) (u : String) (st : AgentState)
    (habort : ∀ i, env.aborted i = false)
    (htool : ∀ sym, ∃ r, env.tool sym = Except.ok r)
    (hresp : ∀ hist : List Content, ∃ resp mu tr rc,
      generateContentWithFallback (env.gen hist) models = (Except.ok (resp, mu), tr) ∧
      contentOf resp = some rc ∧ (toolCallsOf (rc.parts.getD [])).length > 0) :
    ∃ s', runConversationFull env u st = (s', none) ∧
      s'.iteration = MAX_ITERATIONS ∧
      s'.newMessages.length ≤ MAX_ITERATIONS ∧
      (∀ m ∈ s'.newMessages, m.role = Role.tool) := by
  obtain ⟨s', h1, h2, h3, h4⟩ := runLoop_alltools env habort htool hresp MAX_ITERATIONS
    { history := st.history ++ [userTurn u], newMessages := [], statuses := [],
      checkIdx := 1, iteration := 0 }
  refine ⟨s', ?_, by simpa using h2, by simpa using h3, ?_⟩
  · unfold runConversationFull
    simp only [habort 0, Bool.false_eq_true, if_false]
    exact h1
  · intro m hm
    rcases h4 m hm with h | h
    · simp at h
    · exact h

/-- Claim C2 witness: the termination theorem applied to the environment
whose model always requests the registered tool. -/
theorem C2_witness :
    (∀ i, envAllTool.aborted i = false) ∧
    (∃ s', runConversationFull envAllTool "特斯拉现在怎么样?" { history := [] } = (s', none) ∧
      s'.iteration = MAX_ITERATIONS ∧
      s'.newMessages.length ≤ MAX_ITERATIONS ∧
      (∀ m ∈ s'.newMessages, m.role = Role.tool)) :=
  ⟨fun _ => rfl,
   C2_termination envAllTool "特斯拉现在怎么样?" { history := [] }
     (fun _ => rfl)
     (fun _ => ⟨trTSLA, rfl⟩)
     (fun _ => ⟨respToolCall, "gemini-2.0-flash", ["gemini-2.0-flash"], rcToolCall,
       rfl, rfl, by decide⟩)⟩

/-- Claim C3: when some iteration's model response contains no tool-call
parts, the loop stops at that iteration regardless of the remaining
iteration budget and appends exactly one role-model message whose content
is the concatenation, in part order, of the response's text parts, or the
fixed fallback string when that concatenation is empty. -/
theorem C3_final_answer (env : Env) (fuel : Nat) (s : LoopState)
    (resp : GenerateContentResponse) (mu : String) (tr : List String) (rc : Content)
    (habort0 : env.aborted s.checkIdx = false)
    (hgen : generateContentWithFallback (env.gen s.history) models =
      (Except.ok (resp, mu), tr))
    (habort1 : env.aborted (s.checkIdx + 1) = false)
    (hrc : contentOf resp = some rc)
    (hnotool : toolCallsOf (rc.parts.getD []) = []) :
    ∃ s', runLoop env (fuel + 1) s = (s', none) ∧
      s'.newMessages = s.newMessages ++
        [{ id := env.nowId s.newMessages.length
         , role := Role.model
         , content := if textPartsOf (rc.parts.getD []) = "" then "我已处理该请求。"
                      else textPartsOf (rc.parts.getD [])
         , shouldAnimate := some true }] := by
  have hstep := runIteration_final env (s.iteration + 1)
    { s with checkIdx := s.checkIdx + 1, iteration := s.iteration + 1 }
    resp mu tr rc hgen habort1 hrc hnotool
  refine ⟨{ history := s.history ++ [rc]
          , newMessages := s.newMessages ++
              [{ id := env.nowId s.newMessages.length
               , role := Role.model
               , content := if textPartsOf (rc.parts.getD []) = "" then "我已处理该请求。"
                            else textPartsOf (rc.parts.getD [])
               , shouldAnimate := some true }]
          , statuses := s.statuses ++
              [if s.iteration + 1 = 1 then "thinking" else "analyzing_tool_data"]
          , checkIdx := s.checkIdx + 1 + 1
          , iteration := s.iteration + 1 }, ?_, rfl⟩
  unfold runLoop
  simp only [habort0, Bool.false_eq_true, if_false, hstep]

/-- Claim C3 witness: the final-answer theorem applied to the environment
whose model answers with final text immediately. -/
theorem C3_witness :
    envFinal.aborted 1 = false ∧
    toolCallsOf (rcFinal.parts.getD []) = [] ∧
    (∃ s', runLoop envFinal 5
        { history := [userTurn "特斯拉现在怎么样?"], newMessages := [], statuses := [],
          checkIdx := 1, iteration := 0 } = (s', none) ∧
      s'.newMessages = [] ++
        [{ id := envFinal.nowId 0
         , role := Role.model
         , content := if textPartsOf (rcFinal.parts.getD []) = "" then "我已处理该请求。"
                      else textPartsOf (rcFinal.parts.getD [])
         , shouldAnimate := some true }]) :=
  ⟨rfl, rfl,
   C3_final_answer envFinal 4
     { history := [userTurn "特斯拉现在怎么样?"], newMessages := [], statuses := [],
       checkIdx := 1, iteration := 0 }
     respFinal "gemini-2.0-flash" ["gemini-2.0-flash"] rcFinal
     rfl rfl rfl rfl rfl⟩

/-- Claim C4 counterexample: the error whose only populated field is a 503
code is capacity exhaustion in the claim's sense (status/code 429 or 503),
model A always fails with it and model B always succeeds, yet the invoker
propagates A's error after a single attempt: B is never attempted and B's
response is not returned. -/
theorem C4_counterexample :
    specCapacityExhaustion errCode503 = true ∧
    genCode503 "A" = Except.error errCode503 ∧
    genCode503 "B" = Except.ok respFinal ∧
    generateContentWithFallback genCode503 ["A", "B"] =
      (Except.error errCode503, ["A"]) := by
  refine ⟨rfl, rfl, rfl, rfl⟩

/-- Claim C4 (amended): with capacity exhaustion as the code classifies it
(status or code 429, status 503, or a 429/quota/503 message marker — a bare
503 code field is excluded), a fallback list [A, B] where A fails with such
an error and B succeeds yields exactly one attempt on A and one on B, B's
response, and B reported as the model used; and on any successful first
attempt the invoker returns immediately without trying later models. -/
theorem C4_fallback_ordering :
    (∀ (gen : String → Except AgentError GenerateContentResponse)
       (A B : String) (eA : AgentError) (r : GenerateContentResponse),
       A ≠ B →
       gen A = Except.error eA →
       (isRateLimit eA || isOverloaded eA) = true →
       gen B = Except.ok r →
       generateContentWithFallback gen [A, B] = (Except.ok (r, B), [A, B]))
    ∧
    (∀ (gen : String → Except AgentError GenerateContentResponse)
       (m : String) (rest : List String) (r : GenerateContentResponse),
       gen m = Except.ok r →
       generateContentWithFallback gen (m :: rest) = (Except.ok (r, m), [m])) := by
  constructor
  · intro gen A B eA r hAB hA hcap hB
    have hne : (some A != some B) = true := by
      simp [bne_iff_ne, hAB]
    simp [generateContentWithFallback, fallbackGo, hA, hB, hcap, hne, List.getLast?]
  · intro gen m rest r hm
    simp [generateContentWithFallback, fallbackGo, hm]

/-- Claim C4 witness: the amended fallback-ordering theorem applied to the
concrete transport where A fails with a plain 429 and B succeeds, and the
immediate-success conjunct applied to a one-model list. -/
theorem C4_witness :
    generateContentWithFallback genAB ["A", "B"] =
      (Except.ok (respFinal, "B"), ["A", "B"]) ∧
    generateContentWithFallback genAB ["B"] =
      (Except.ok (respFinal, "B"), ["B"]) :=
  ⟨C4_fallback_ordering.1 genAB "A" "B" err429 respFinal
      (by decide) rfl (by decide) rfl,
   C4_fallback_ordering.2 genAB "B" [] respFinal rfl⟩

/-- Claim C5 counterexample: A fails with the code-503 error and B with a
plain 429 — both capacity exhaustion in the claim's sense — yet the invoker
raises A's error after a single attempt: there is no second attempt and the
raised error is not the last (B's) error. -/
theorem C5_counterexample :
    specCapacityExhaustion errCode503 = true ∧
    specCapacityExhaustion err429 = true ∧
    genCode503Then429 "A" = Except.error errCode503 ∧
    genCode503Then429 "B" = Except.error err429 ∧
    generateContentWithFallback genCode503Then429 ["A", "B"] =
      (Except.error errCode503, ["A"]) := by
  refine ⟨rfl, rfl, rfl, rfl, rfl⟩

/-- Claim C5 (amended): with capacity exhaustion as the code classifies it
(a bare 503 code field excluded), a fallback list [A, B] where A fails with
such an error raises B's error after exactly one attempt per model; and a
failure not so classified is propagated immediately without attempting
further candidates. -/
theorem C5_fallback_exhaustion :
    (∀ (gen : String → Except AgentError GenerateContentResponse)
       (A B : String) (eA eB : AgentError),
       A ≠ B →
       gen A = Except.error eA →
       (isRateLimit eA || isOverloaded eA) = true →
       gen B = Except.error eB →
       generateContentWithFallback gen [A, B] = (Except.error eB, [A, B]))
    ∧
    (∀ (gen : String → Except AgentError GenerateContentResponse)
       (m : String) (rest : List String) (e : AgentError),
       gen m = Except.error e →
       (isRateLimit e || isOverloaded e) = false →
       generateContentWithFallback gen (m :: rest) = (Except.error e, [m])) := by
  constructor
  · intro gen A B eA eB hAB hA hcap hB
    have hne : (some A != some B) = true := by
      simp [bne_iff_ne, hAB]
    simp [generateContentWithFallback, fallbackGo, hA, hB, hcap, hne, List.getLast?]
  · intro gen m rest e hm hcap
    simp [generateContentWithFallback, fallbackGo, hm, hcap]

/-- Claim C5 witness: the amended exhaustion theorem applied to the
transport where A fails with a 429 and B with a 503, and the
immediate-propagation conjunct applied to a non-capacity failure. -/
theorem C5_witness :
    generateContentWithFallback genBothFail ["A", "B"] =
      (Except.error err503, ["A", "B"]) ∧
    generateContentWithFallback (fun _ => Except.error errGeneric) ["A", "B"] =
      (Except.error errGeneric, ["A"]) :=
  ⟨C5_fallback_exhaustion.1 genBothFail "A" "B" err429 err503
      (by decide) rfl (by decide) rfl,
   C5_fallback_exhaustion.2 (fun _ => Except.error errGeneric) "A" ["B"] errGeneric
      rfl (by decide)⟩

/-- Claim C9: setHistory maps each non-tool message, in order, to exactly
one turn whose role matches (user for user messages, model otherwise) and
whose single text part is the message content, with no extraneous turns;
and the concrete two-message seeding yields the expected two-turn
history. -/
theorem C9_setHistory :
    (∀ msgs : List Message,
      List.Forall₂ (fun (m : Message) (c : Content) =>
          c.role = some (if m.role = Role.user then "user" else "model") ∧
          c.parts = some [{ text := some m.content }])
        (msgs.filter fun m => m.role != Role.tool) (setHistory msgs))
    ∧ setHistory
        [{ id := "1", role := Role.user, content := "AAPL?" },
         { id := "2", role := Role.model, content := "Apple is at $150" }] =
      [{ role := some "user", parts := some [{ text := some "AAPL?" }] },
       { role := some "model", parts := some [{ text := some "Apple is at $150" }] }] := by
  constructor
  · intro msgs
    unfold setHistory
    rw [List.forall₂_map_right_iff, List.forall₂_same]
    intro m _hm
    by_cases h : m.role = Role.user <;> simp [h]
  · rfl

/-- Claim C6 (code bug): a cancellation honored at the checkpoint before
the first tool call unwinds after the model turn with tool-call parts was
already appended: the run ends with the AbortError signal, the history's
last entry is the model turn containing one tool-call part, no tool-result
turn follows it, and the surviving agent state carries no termination
marker a later run could use to repair the pairing. -/
theorem C6_dangling_pairing :
    runConversationFull envC6 "查询特斯拉" { history := [] } =
      ({ history := [userTurn "查询特斯拉", rcToolCall]
       , newMessages := []
       , statuses := ["thinking", "executing_tool"]
       , checkIdx := 3
       , iteration := 1 }, some abortError) ∧
    (toolCallsOf (rcToolCall.parts.getD [])).length = 1 ∧
    [userTurn "查询特斯拉", rcToolCall].getLast? = some rcToolCall := by
  refine ⟨by decide, rfl, rfl⟩

/-- Claim C7: every non-cancellation failure of an iteration — invoker
failure after fallback exhaustion, empty model response, tool execution
failure — is caught inside the iteration, stops the loop regardless of the
remaining iteration budget, appends exactly one role-model message whose
text is selected by error category (all-models-exhausted for a 429,
quota-exhausted for a quota marker, model-unavailable for a 404, generic
otherwise), and the run returns normally; the only error that ever escapes
runConversation carries the AbortError name. -/
theorem C7_error_handling :
    (errorMessageFor err429 = "所有可用模型的免费配额均已耗尽。请稍后再试（Gemini 2.0 & 1.5）。" ∧
     errorMessageFor errQuota = "API 配额已耗尽。请稍后再试。" ∧
     errorMessageFor err404 = "配置的模型不可用。" ∧
     errorMessageFor errGeneric = "处理您的请求时遇到错误。")
    ∧
    (∀ (env : Env) (u : String) (st : AgentState) (e : AgentError),
      (runConversation env u st).2 = Except.error e → e.name = some "AbortError")
    ∧
    (∀ (env : Env) (fuel : Nat) (s : LoopState) (e : AgentError) (tr : List String),
      env.aborted s.checkIdx = false →
      generateContentWithFallback (env.gen s.history) models = (Except.error e, tr) →
      e.name ≠ some "AbortError" →
      ∃ s', runLoop env (fuel + 1) s = (s', none) ∧
        s'.newMessages = s.newMessages ++
          [{ id := env.nowId s.newMessages.length, role := Role.model,
             content := errorMessageFor e, shouldAnimate := some true }])
    ∧
    (∀ (env : Env) (fuel : Nat) (s : LoopState)
       (resp : GenerateContentResponse) (mu : String) (tr : List String),
      env.aborted s.checkIdx = false →
      generateContentWithFallback (env.gen s.history) models = (Except.ok (resp, mu), tr) →
      env.aborted (s.checkIdx + 1) = false →
      contentOf resp = none →
      ∃ s', runLoop env (fuel + 1) s = (s', none) ∧
        s'.newMessages = s.newMessages ++
          [{ id := env.nowId s.newMessages.length, role := Role.model,
             content := errorMessageFor noContentError, shouldAnimate := some true }])
    ∧
    (∀ (env : Env) (fuel : Nat) (s : LoopState)
       (resp : GenerateContentResponse) (mu : String) (tr : List String)
       (rc : Content) (e : AgentError),
      env.aborted s.checkIdx = false →
      generateContentWithFallback (env.gen s.history) models = (Except.ok (resp, mu), tr) →
      env.aborted (s.checkIdx + 1) = false →
      contentOf resp = some rc →
      (toolCallsOf (rc.parts.getD [])).length > 0 →
      execTools env (toolCallsOf (rc.parts.getD [])) (s.checkIdx + 1 + 1) [] [] =
        Except.error e →
      e.name ≠ some "AbortError" →
      ∃ s', runLoop env (fuel + 1) s = (s', none) ∧
        s'.newMessages = s.newMessages ++
          [{ id := env.nowId s.newMessages.length, role := Role.model,
             content := errorMessageFor e, shouldAnimate := some true }]) := by
  refine ⟨⟨rfl, rfl, rfl, rfl⟩, ?_, ?_, ?_, ?_⟩
  · exact fun env u st e h => runConversation_error_name env u st e h
  · intro env fuel s e tr habort0 hgen hname
    have hstep := runIteration_genError env (s.iteration + 1)
      { s with checkIdx := s.checkIdx + 1, iteration := s.iteration + 1 } e tr hgen hname
    refine ⟨{ history := s.history
            , newMessages := s.newMessages ++
                [{ id := env.nowId s.newMessages.length, role := Role.model,
                   content := errorMessageFor e, shouldAnimate := some true }]
            , statuses := s.statuses ++
                [if s.iteration + 1 = 1 then "thinking" else "analyzing_tool_data"]
            , checkIdx := s.checkIdx + 1
            , iteration := s.iteration + 1 }, ?_, rfl⟩
    unfold runLoop
    simp only [habort0, Bool.false_eq_true, if_false, hstep]
  · intro env fuel s resp mu tr habort0 hgen habort1 hrc
    have hstep := runIteration_noContent env (s.iteration + 1)
      { s with checkIdx := s.checkIdx + 1, iteration := s.iteration + 1 }
      resp mu tr hgen habort1 hrc
    refine ⟨{ history := s.history
            , newMessages := s.newMessages ++
                [{ id := env.nowId s.newMessages.length, role := Role.model,
                   content := errorMessageFor noContentError, shouldAnimate := some true }]
            , statuses := s.statuses ++
                [if s.iteration + 1 = 1 then "thinking" else "analyzing_tool_data"]
            , checkIdx := s.checkIdx + 1 + 1
            , iteration := s.iteration + 1 }, ?_, rfl⟩
    unfold runLoop
    simp only [habort0, Bool.false_eq_true, if_false, hstep]
  · intro env fuel s resp mu tr rc e habort0 hgen habort1 hrc htools hexec hname
    have hstep := runIteration_toolError env (s.iteration + 1)
      { s with checkIdx := s.checkIdx + 1, iteration := s.iteration + 1 }
      resp mu tr rc e hgen habort1 hrc htools hexec hname
    refine ⟨{ history := s.history ++ [rc]
            , newMessages := s.newMessages ++
                [{ id := env.nowId s.newMessages.length, role := Role.model,
                   content := errorMessageFor e, shouldAnimate := some true }]
            , statuses := (s.statuses ++
                [if s.iteration + 1 = 1 then "thinking" else "analyzing_tool_data"])
                ++ ["executing_tool"]
            , checkIdx := s.checkIdx + 1 + 1
            , iteration := s.iteration + 1 }, ?_, rfl⟩
    unfold runLoop
    simp only [habort0, Bool.false_eq_true, if_false, hstep]

/-- Claim C7 witness: the error-handling theorem applied to a run aborted
from the start (only AbortError escapes), to a transport that always fails
with a 429, to a transport whose response has no content, and to a failing
tool body. -/
theorem C7_witness :
    abortError.name = some "AbortError" ∧
    (∃ s', runLoop envGen429 5
        { history := [userTurn "你好"], newMessages := [], statuses := [],
          checkIdx := 1, iteration := 0 } = (s', none) ∧
      s'.newMessages = [] ++
        [{ id := envGen429.nowId 0, role := Role.model,
           content := errorMessageFor err429, shouldAnimate := some true }]) ∧
    (∃ s', runLoop envNoContent 5
        { history := [userTurn "你好"], newMessages := [], statuses := [],
          checkIdx := 1, iteration := 0 } = (s', none) ∧
      s'.newMessages = [] ++
        [{ id := envNoContent.nowId 0, role := Role.model,
           content := errorMessageFor noContentError, shouldAnimate := some true }]) ∧
    (∃ s', runLoop envToolFail 5
        { history := [userTurn "你好"], newMessages := [], statuses := [],
          checkIdx := 1, iteration := 0 } = (s', none) ∧
      s'.newMessages = [] ++
        [{ id := envToolFail.nowId 0, role := Role.model,
           content := errorMessageFor errToolFail, shouldAnimate := some true }]) :=
  ⟨C7_error_handling.2.1 envAborted "你好" { history := [] } abortError rfl,
   C7_error_handling.2.2.1 envGen429 4
     { history := [userTurn "你好"], newMessages := [], statuses := [],
       checkIdx := 1, iteration := 0 }
     err429 ["gemini-2.0-flash", "gemini-1.5-flash"] rfl rfl (by decide),
   C7_error_handling.2.2.2.1 envNoContent 4
     { history := [userTurn "你好"], newMessages := [], statuses := [],
       checkIdx := 1, iteration := 0 }
     { candidates := some [] } "gemini-2.0-flash" ["gemini-2.0-flash"]
     rfl rfl rfl rfl,
   C7_error_handling.2.2.2.2 envToolFail 4
     { history := [userTurn "你好"], newMessages := [], statuses := [],
       checkIdx := 1, iteration := 0 }
     respToolCall "gemini-2.0-flash" ["gemini-2.0-flash"] rcToolCall errToolFail
     rfl rfl rfl rfl (by decide) rfl (by decide)⟩

/-- Claim C8: when cancellation is requested before the model call of an
iteration — at the pre-loop check or at the loop-top check — the run emits
no AgentResponse for that iteration and terminates by throwing the
AbortError cancellation signal, which the caller distinguishes from a
normal result by its name. -/
theorem C8_cancel_before_call :
    (∀ (env : Env) (u : String) (st : AgentState),
      env.aborted 0 = true →
      runConversationFull env u st =
        ({ history := st.history ++ [userTurn u], newMessages := [],
           statuses := [], checkIdx := 1, iteration := 0 }, some abortError) ∧
      (runConversation env u st).2 = Except.error abortError)
    ∧
    (∀ (env : Env) (fuel : Nat) (s : LoopState),
      env.aborted s.checkIdx = true →
      runLoop env (fuel + 1) s = (s, some abortError))
    ∧ abortError.name = some "AbortError" := by
  refine ⟨?_, ?_, rfl⟩
  · intro env u st h
    have h1 : runConversationFull env u st =
        ({ history := st.history ++ [userTurn u], newMessages := [],
           statuses := [], checkIdx := 1, iteration := 0 }, some abortError) := by
      unfold runConversationFull
      simp only [h, if_true]
    refine ⟨h1, ?_⟩
    unfold runConversation
    rw [h1]
  · intro env fuel s h
    unfold runLoop
    simp only [h, if_true]

/-- Claim C8 witness: the cancellation theorem applied to the environment
aborted from the start. -/
theorem C8_witness :
    envAborted.aborted 0 = true ∧
    runConversationFull envAborted "你好" { history := [] } =
      ({ history := [] ++ [userTurn "你好"], newMessages := [], statuses := [],
         checkIdx := 1, iteration := 0 }, some abortError) ∧
    (runConversation envAborted "你好" { history := [] }).2 = Except.error abortError ∧
    runLoop envAborted (4 + 1)
      { history := [userTurn "你好"], newMessages := [], statuses := [],
        checkIdx := 1, iteration := 0 } =
      ({ history := [userTurn "你好"], newMessages := [], statuses := [],
         checkIdx := 1, iteration := 0 }, some abortError) :=
  ⟨rfl,
   (C8_cancel_before_call.1 envAborted "你好" { history := [] } rfl).1,
   (C8_cancel_before_call.1 envAborted "你好" { history := [] } rfl).2,
   C8_cancel_before_call.2.1 envAborted 4
     { history := [userTurn "你好"], newMessages := [], statuses := [],
       checkIdx := 1, iteration := 0 } rfl⟩

/-- Claim C10: when the loop ends by throwing (outcome some e),
runConversation rethrows the error and returns no message list, so the
tool-summary messages accumulated in earlier completed iterations sit
undelivered in the discarded loop state; in particular, after an iteration
that completed and pushed messages, a set abort flag at the next loop-top
check throws AbortError with those messages never reaching the caller. -/
theorem C10_lost_messages :
    (∀ (env : Env) (u : String) (st : AgentState) (s : LoopState) (e : AgentError),
      runConversationFull env u st = (s, some e) →
      (runConversation env u st).2 = Except.error e ∧
      ∀ msgs : List Message, (runConversation env u st).2 ≠ Except.ok msgs)
    ∧
    (∀ (env : Env) (fuel : Nat) (s s₁ : LoopState),
      env.aborted s.checkIdx = false →
      runIteration env (s.iteration + 1)
        { s with checkIdx := s.checkIdx + 1, iteration := s.iteration + 1 } =
        StepResult.more s₁ →
      env.aborted s₁.checkIdx = true →
      runLoop env (fuel + 1 + 1) s = (s₁, some abortError)) := by
  constructor
  · intro env u st s e h
    have h2 : (runConversation env u st).2 = Except.error e := by
      unfold runConversation
      rw [h]
    refine ⟨h2, ?_⟩
    intro msgs hok
    rw [h2] at hok
    cases hok
  · intro env fuel s s₁ h0 hstep h1
    unfold runLoop
    simp only [h0, Bool.false_eq_true, if_false, hstep]
    unfold runLoop
    simp only [h1, if_true]

/-- Claim C10 witness: the loss theorem applied to the environment whose
first iteration completes with one tool-summary message and whose abort
flag is set at the next loop-top check. -/
theorem C10_witness :
    ((runConversation envC10 "查询特斯拉" { history := [] }).2 = Except.error abortError ∧
     ∀ msgs : List Message,
       (runConversation envC10 "查询特斯拉" { history := [] }).2 ≠ Except.ok msgs) ∧
    c10State.newMessages ≠ [] ∧
    runLoop envC10 (3 + 1 + 1)
      { history := [userTurn "查询特斯拉"], newMessages := [], statuses := [],
        checkIdx := 1, iteration := 0 } = (c10State, some abortError) :=
  ⟨C10_lost_messages.1 envC10 "查询特斯拉" { history := [] } c10State abortError rfl,
   by decide,
   C10_lost_messages.2 envC10 3
     { history := [userTurn "查询特斯拉"], newMessages := [], statuses := [],
       checkIdx := 1, iteration := 0 }
     c10State rfl rfl rfl⟩

end StockAgent
